import Mathlib

/-!
Verification of the plaso text-plugin scanning engine and plist parser.

Shallow embedding of:
- plaso/parsers/text_plugins/interface.py  (TextPlugin: grammar compilation,
  string scanning, line-by-line parsing loop, encoding error handler)
- plaso/parsers/text_plugins/winfirewall.py  (WinFirewallLogTextPlugin)
- plaso/parsers/plist.py  (PlistParser)

Strings are modelled as lists of characters; machine-level details such as
the pyparsing library internals are embedded per their documented semantics.
-/

namespace Plaso

/-! ### Basic character-list helpers (Python string operations) -/

/-- Test for the characters Python str.isspace treats as whitespace
(the ASCII subset, which is all that the claims exercise). -/
def isPySpace (c : Char) : Bool :=
  c == ' ' || c == '\t' || c == '\n' || c == '\r' || c == '\x0b' || c == '\x0c'

/-- Python str.rstrip applied to a character list: remove trailing
whitespace characters. -/
def pyRstrip (l : List Char) : List Char :=
  ((l.reverse.dropWhile isPySpace)).reverse

/-- Test whether the list `p` occurs at the head of `l`
(Python str.startswith). -/
def startsWithL : List Char → List Char → Bool
  | [], _ => true
  | _ :: _, [] => false
  | p :: ps, c :: cs => p == c && startsWithL ps cs

/-- Test whether the list `n` occurs anywhere inside `l`
(the Python operator `in` on strings). -/
def containsSub (n : List Char) : List Char → Bool
  | [] => startsWithL n []
  | c :: cs => startsWithL n (c :: cs) || containsSub n cs

/-- Python str.partition at the first occurrence of `sep`: the part after
the separator, or the empty string when the separator is absent. -/
def partAfter (sep : Char) : List Char → List Char
  | [] => []
  | c :: cs => if c == sep then cs else partAfter sep cs

/-- Python str.lower restricted to the ASCII range used by the plugin. -/
def lowerL (l : List Char) : List Char :=
  l.map Char.toLower

/-! ### EncodingGuard: TextPlugin._EncodingErrorHandler

Embedding of interface.py lines 46-69 together with the behaviour of a
codecs-style decoder that invokes the registered error handler on every
invalid byte and resumes at the returned position. -/

/-- Lowercase hexadecimal digit of a value below 16. -/
def hexDigit (n : Nat) : Char :=
  if n < 10 then Char.ofNat (48 + n) else Char.ofNat (87 + n)

/-- Python format specification `{0:2x}`: lowercase hexadecimal,
right-aligned in a field of width 2, padded with a SPACE (not zero). -/
def pyFormatHex2 (b : Nat) : List Char :=
  if b < 16 then [' ', hexDigit b] else [hexDigit (b / 16), hexDigit (b % 16)]

/-- Python format specification `{0:02x}`: lowercase hexadecimal,
zero-padded to width 2. -/
def pyFormatHex02 (b : Nat) : List Char :=
  if b < 16 then ['0', hexDigit b] else [hexDigit (b / 16), hexDigit (b % 16)]

/-- Replacement string built by _EncodingErrorHandler for one offending
byte: a backslash-x escape whose hex value is formatted with `{0:2x}`
(interface.py line 68). -/
def encodingErrorEscape (b : Nat) : List Char :=
  '\\' :: 'x' :: pyFormatHex2 b

/-- Warning message produced by _EncodingErrorHandler (interface.py
lines 62-66): the byte formatted with `{0:02x}` and the absolute offset
(current stream offset plus in-buffer offset of the bad byte). -/
def encodingErrorWarning (currentOffset : Nat) (b : Nat) (start : Nat) : String :=
  String.mk
    (("error decoding 0x".toList ++ pyFormatHex02 b) ++
      (" at offset: ".toList ++ (toString (currentOffset + start)).toList))

/-- Result of _EncodingErrorHandler: the replacement string and the
position at which decoding resumes, plus the warning emitted through the
parser mediator. -/
def encodingErrorHandler (currentOffset : Nat) (object : List Nat) (start : Nat) :
    (List Char × Nat) × String :=
  let b := object.getD start 0
  ((encodingErrorEscape b, start + 1), encodingErrorWarning currentOffset b start)

/-- Decode a byte list as ASCII with the text_parser_handler error
handler: each byte below 128 decodes to itself, every other byte raises
UnicodeDecodeError whose handler substitutes the escape and resumes at
the next byte. Returns the decoded text and the emitted warnings.
The recursion consumes the list position by position, mirroring the
strictly increasing resume position returned by the handler. -/
def decodeAsciiWithHandler (currentOffset : Nat) (object : List Nat) :
    List Char × List String :=
  go object 0 (object.length + 1)
where
  go (object : List Nat) (pos : Nat) : Nat → List Char × List String
    | 0 => ([], [])
    | fuel + 1 =>
      match object.get? pos with
      | none => ([], [])
      | some b =>
        if b < 128 then
          let rest := go object (pos + 1) fuel
          (Char.ofNat b :: rest.1, rest.2)
        else
          let r := encodingErrorHandler currentOffset object pos
          let rest := go object r.1.2 fuel
          (r.1.1 ++ rest.1, r.2 :: rest.2)

/-! ### GrammarEngine: _SetLineStructures and _ParseString

A line grammar is embedded as a key together with a matcher: given the
buffer and a position, the matcher either fails or returns the end offset
of the match and the extracted token structure. _SetLineStructures wraps
every expression in a named group and combines them with the pyparsing
`^=` operator, which builds an Or alternation: per the pyparsing
semantics, at a given position every alternative is tried and the one
with the LONGEST match wins, with ties broken in favour of the earliest
alternative (strict improvement is required to replace the running best). -/

/-- One named line grammar of a plugin, as registered through
_LINE_STRUCTURES and compiled by _SetLineStructures. -/
structure Grammar (τ : Type) where
  key : String
  matchAt : List Char → Nat → Option (Nat × τ)

/-- Semantics of the pyparsing Or alternation built by _SetLineStructures
via `^=`: all alternatives are evaluated at position `i`; the longest
match wins and an equally long later match never displaces an earlier
one. -/
def orMatchAt {τ : Type} (gs : List (Grammar τ)) (s : List Char) (i : Nat) :
    Option (String × Nat × τ) :=
  match gs with
  | [] => none
  | g :: rest =>
    match g.matchAt s i, orMatchAt rest s i with
    | none, r => r
    | some (e, t), none => some (g.key, e, t)
    | some (e, t), some (k2, e2, t2) =>
      if e2 > e then some (k2, e2, t2) else some (g.key, e, t)

/-- Scan for the leftmost match of the alternation, starting at position
`i`; pyparsing scanString tries every position up to and including the
end of the string. -/
def scanFrom {τ : Type} (gs : List (Grammar τ)) (s : List Char) (i : Nat) :
    Nat → Option (String × Nat × Nat × τ)
  | 0 => none
  | fuel + 1 =>
    match orMatchAt gs s i with
    | some (k, e, t) => some (k, i, e, t)
    | none => if i < s.length then scanFrom gs s (i + 1) fuel else none

/-- Embedding of pyparsing scanString with maxMatches set to 1: the
single leftmost occurrence of any alternative, as key, start offset,
end offset and token structure. -/
def scanString {τ : Type} (gs : List (Grammar τ)) (s : List Char) :
    Option (String × Nat × Nat × τ) :=
  scanFrom gs s 0 (s.length + 1)

/-- Result of TextPlugin._ParseString: either the key, token structure
and offsets of a match, or a ParseError with its message. -/
inductive ParseStringResult (τ : Type) where
  | ok (key : String) (tok : τ) (start stop : Nat)
  | error (msg : String)
  deriving DecidableEq

/-- Embedding of TextPlugin._ParseString (interface.py lines 201-236):
scan for one match; no match raises ParseError; a match that starts at
offset s greater than 0 with a newline occurring in the first s + 1
characters raises ParseError; otherwise the key and offsets are
returned. In this embedding a match always carries exactly one key, so
the final length check of the source never fires. -/
def parseString {τ : Type} (gs : List (Grammar τ)) (s : List Char) :
    ParseStringResult τ :=
  match scanString gs s with
  | none => ParseStringResult.error "No match found."
  | some (k, start, stop, t) =>
    if start > 0 && containsSub ['\n'] (s.take (start + 1)) then
      ParseStringResult.error "Found a line preceeding match."
    else
      ParseStringResult.ok k t start stop

/-! ### Windows Firewall log plugin: data model (winfirewall.py) -/

/-- Six date and time components extracted by the _DATE_TIME group. -/
structure TimeElementsTuple where
  year : Nat
  month : Nat
  day_of_month : Nat
  hours : Nat
  minutes : Nat
  seconds : Nat
  deriving DecidableEq

/-- Embedding of WinFirewallEventData (winfirewall.py lines 18-58): a flat
attribute bag whose fields are all optional; a suppressed blank token is
an absent value, never an empty string. -/
structure WinFirewallEventData where
  action : Option String
  dest_ip : Option String
  dest_port : Option Nat
  flags : Option String
  icmp_code : Option Nat
  icmp_type : Option Nat
  info : Option String
  path : Option String
  protocol : Option String
  size : Option Nat
  source_ip : Option String
  source_port : Option Nat
  tcp_ack : Option Nat
  tcp_seq : Option Nat
  tcp_win : Option Nat
  deriving DecidableEq

/-- Embedding of the tokens of one matched _LOG_LINE, as accessed through
_GetValueFromStructure: every named token that is absent (a suppressed
blank) reads as none. -/
structure LogLineStructure where
  date_time : Option TimeElementsTuple
  action : Option String
  protocol : Option String
  source_ip : Option String
  dest_ip : Option String
  source_port : Option Nat
  dest_port : Option Nat
  size : Option Nat
  flags : Option String
  tcp_seq : Option Nat
  tcp_ack : Option Nat
  tcp_win : Option Nat
  icmp_type : Option Nat
  icmp_code : Option Nat
  info : Option String
  path : Option String
  deriving DecidableEq

/-- Token structure produced by one match of the compiled winfirewall
grammar: the unwrapped group for the comment key or for the logline key. -/
inductive WinFwToken where
  | comment (text : String)
  | logline (fields : LogLineStructure)
  deriving DecidableEq

/-- Embedding of time_events.DateTimeValuesEvent as produced by
_ParseLogLine: the date and time values, the local-time marker set by
the plugin, the timestamp description and the chosen time zone. Time
zones are identified by name; the fixed neutral zone pytz.UTC is the
name UTC. -/
structure DateTimeValuesEvent where
  date_time : TimeElementsTuple
  is_local_time : Bool
  timestamp_desc : String
  time_zone : String
  deriving DecidableEq

/-- Value of definitions.TIME_DESCRIPTION_WRITTEN (plaso.lib.definitions,
outside src; the exact text does not affect any claim). -/
def TIME_DESCRIPTION_WRITTEN : String := "Content Modification Time"

/-- Mediator capabilities consumed by the scanning loop and the plugin:
the cooperative abort flag and the caller-supplied time zone. -/
structure ParserMediator where
  abort : Bool
  timezone : String
  deriving DecidableEq

/-- One observable effect published through the parser mediator: an event
paired with its event data, or an extraction warning. -/
inductive Output where
  | event (e : DateTimeValuesEvent) (d : WinFirewallEventData)
  | warning (msg : String)
  deriving DecidableEq

/-- Test whether an output is an event. -/
def Output.isEvent : Output → Bool
  | .event _ _ => true
  | .warning _ => false

/-! ### EncodedTextReader and the _ParseLines loop

The reader itself (plaso.parsers.text_parser.EncodedTextReader) is not
part of the examined sources. Modelled from the spec: a buffered
line-oriented reader over already decoded text; ReadLine removes the
text up to and including the first line terminator; SkipAhead consumes a
given number of characters; line numbers grow with every consumed line.
The model keeps the whole remaining text in the buffer, which preserves
the offset-monotonicity and forward-progress properties the spec
requires of any concrete buffering policy. -/

structure TextReader where
  lines : List Char
  line_number : Nat
  deriving DecidableEq

/-- Modelled from the spec: ReadLine returns the buffered text before the
first line terminator and removes it, terminator included, from the
buffer, counting one line. -/
def TextReader.readLine (rd : TextReader) : String × TextReader :=
  let line := rd.lines.takeWhile (fun c => !(c == '\n'))
  let rest := (rd.lines.dropWhile (fun c => !(c == '\n'))).drop 1
  (String.mk line, { lines := rest, line_number := rd.line_number + 1 })

/-- Modelled from the spec: SkipAhead consumes the given number of
characters from the buffer, counting the consumed line terminators. -/
def TextReader.skipAhead (rd : TextReader) (n : Nat) : TextReader :=
  { lines := rd.lines.drop n,
    line_number := rd.line_number + ((rd.lines.take n).filter (fun c => c == '\n')).length }

/-- Value of TextPlugin._MAXIMUM_CONSECUTIVE_LINE_FAILURES
(interface.py line 33). -/
def MAXIMUM_CONSECUTIVE_LINE_FAILURES : Nat := 20

/-- Summary warning text emitted when the consecutive failure counter
exceeds the threshold (interface.py lines 136-138). -/
def summaryWarning : String :=
  "more than " ++ toString MAXIMUM_CONSECUTIVE_LINE_FAILURES ++
    " consecutive failures to parse lines."

/-- Number of summary warnings among the outputs. -/
def countSummaryWarnings (outs : List Output) : Nat :=
  (outs.filter (fun o => o == Output.warning summaryWarning)).length

/-- Final state of one _ParseLines run. -/
structure ParseLinesResult (σ : Type) where
  state : σ
  outputs : List Output
  consecutive_line_failures : Nat
  aborted_by_threshold : Bool
  reader : TextReader

/-- Embedding of the scanning loop of TextPlugin._ParseLines
(interface.py lines 129-185), parametric in the plugin state and the
compiled grammar. Each iteration: stop on an empty buffer; stop on the
cooperative abort flag; emit one summary warning and stop when the
failure counter exceeds the threshold; otherwise attempt _ParseString.
On a parse failure, consume one line: an empty line is skipped silently,
any other line yields one warning with the line number and a preview
truncated to 77 characters plus an ellipsis when longer than 80, and
increments the failure counter. On a match, the counter resets to zero,
the record handler runs (a ParseError from it becomes one warning and
the record is dropped), and the buffer advances past the match end.
Recursion is fuelled; the fuel given by parseLines exceeds the number of
iterations any input can drive. -/
def parseLinesLoop {σ τ : Type} (gs : List (Grammar τ))
    (handler : σ → String → τ → Except String (σ × List Output))
    (abort : Bool) :
    Nat → σ → TextReader → Nat → List Output → ParseLinesResult σ
  | 0, st, rd, fails, outs => ⟨st, outs.reverse, fails, false, rd⟩
  | fuel + 1, st, rd, fails, outs =>
    if rd.lines.isEmpty then ⟨st, outs.reverse, fails, false, rd⟩
    else if abort then ⟨st, outs.reverse, fails, false, rd⟩
    else if fails > MAXIMUM_CONSECUTIVE_LINE_FAILURES then
      ⟨st, (Output.warning summaryWarning :: outs).reverse, fails, true, rd⟩
    else
      match parseString gs rd.lines with
      | ParseStringResult.error _ =>
        let lr := rd.readLine
        if lr.1.isEmpty then
          parseLinesLoop gs handler abort fuel st lr.2 fails outs
        else
          let preview :=
            if lr.1.length > 80 then String.mk (lr.1.toList.take 77) ++ "..." else lr.1
          let w := "unable to parse log line: " ++ toString lr.2.line_number ++
            " \"" ++ preview ++ "\""
          parseLinesLoop gs handler abort fuel st lr.2 (fails + 1)
            (Output.warning w :: outs)
      | ParseStringResult.ok k t _ stop =>
        let hr :=
          match handler st k t with
          | Except.ok r => r
          | Except.error emsg =>
            (st, [Output.warning ("unable to parse record: " ++ k ++
              " with error: " ++ emsg)])
        parseLinesLoop gs handler abort fuel hr.1 (rd.skipAhead stop) 0
          (hr.2.reverse ++ outs)

/-- Embedding of TextPlugin._ParseLines over a fully buffered reader:
the loop starts with the failure counter at zero and the whole decoded
text in the buffer. -/
def parseLines {σ τ : Type} (gs : List (Grammar τ))
    (handler : σ → String → τ → Except String (σ × List Output))
    (abort : Bool) (st : σ) (text : String) : ParseLinesResult σ :=
  parseLinesLoop gs handler abort (2 * text.length + 2) st ⟨text.toList, 0⟩ 0 []

/-! ### Windows Firewall log plugin: line grammars (winfirewall.py)

The pyparsing expressions of _LINE_STRUCTURES are embedded as character
level matchers. Leaf expressions skip leading whitespace, which the
compiled grammar restricts to the plain space character
(setDefaultWhitespaceChars in interface.py line 263); tabs are never
expanded (parseWithTabs, line 260). -/

/-- Number of leading space characters. -/
def countLeadingSpaces : List Char → Nat
  | ' ' :: cs => countLeadingSpaces cs + 1
  | _ => 0

/-- Position after the run of spaces starting at `i`. -/
def skipSpaces (s : List Char) (i : Nat) : Nat :=
  i + countLeadingSpaces (s.drop i)

/-- Embedding of pyparsing.Literal: skip leading spaces, then require the
literal text. -/
def litMatch (lit : List Char) (s : List Char) (i : Nat) : Option Nat :=
  let j := skipSpaces s i
  if startsWithL lit (s.drop j) then some (j + lit.length) else none

/-- Embedding of pyparsing.Word over a character class with a minimum
length and an optional maximum length: skip leading spaces, take the
maximal run of class characters capped at the maximum, and require at
least the minimum (always at least one character). -/
def wordMatch (p : Char → Bool) (minLen : Nat) (maxLen : Option Nat)
    (s : List Char) (i : Nat) : Option (Nat × List Char) :=
  let j := skipSpaces s i
  let run := (s.drop j).takeWhile p
  let taken :=
    match maxLen with
    | none => run
    | some m => run.take m
  if taken.length < max minLen 1 then none else some (j + taken.length, taken)

/-- Numeric value of a digit run (the ConvertTokenToInteger and
PyParseIntCast parse actions of plaso.parsers.text_parser). -/
def digitsToNat (l : List Char) : Nat :=
  l.foldl (fun a c => 10 * a + (c.toNat - 48)) 0

/-- Word of exactly `n` digits converted to its value (_TWO_DIGITS and
_FOUR_DIGITS). -/
def exactDigits (n : Nat) (s : List Char) (i : Nat) : Option (Nat × Nat) :=
  match wordMatch Char.isDigit n (some n) s i with
  | none => none
  | some (j, run) => some (j, digitsToNat run)

/-- Embedding of the _DATE_TIME group: four digit year, a suppressed
hyphen, two digit month, a suppressed hyphen, two digit day, two digit
hours, a suppressed colon, two digit minutes, a suppressed colon, two
digit seconds. -/
def dateTimeMatch (s : List Char) (i : Nat) : Option (Nat × TimeElementsTuple) :=
  match exactDigits 4 s i with
  | none => none
  | some ry =>
  match litMatch ['-'] s ry.1 with
  | none => none
  | some i1 =>
  match exactDigits 2 s i1 with
  | none => none
  | some rmo =>
  match litMatch ['-'] s rmo.1 with
  | none => none
  | some i2 =>
  match exactDigits 2 s i2 with
  | none => none
  | some rd =>
  match exactDigits 2 s rd.1 with
  | none => none
  | some rh =>
  match litMatch [':'] s rh.1 with
  | none => none
  | some i3 =>
  match exactDigits 2 s i3 with
  | none => none
  | some rmi =>
  match litMatch [':'] s rmi.1 with
  | none => none
  | some i4 =>
  match exactDigits 2 s i4 with
  | none => none
  | some rse =>
    some (rse.1, ⟨ry.2, rmo.2, rd.2, rh.2, rmi.2, rse.2⟩)

/-- Embedding of _WORD: a word of alphanumerics, else a word of at least
two alphanumerics and hyphens, else the suppressed blank literal, whose
token is absent (MatchFirst semantics of the pyparsing pipe operator:
the first alternative that matches wins). -/
def wordFieldMatch (s : List Char) (i : Nat) : Option (Nat × Option String) :=
  match wordMatch Char.isAlphanum 1 none s i with
  | some (j, run) => some (j, some (String.mk run))
  | none =>
    match wordMatch (fun c => Char.isAlphanum c || c == '-') 2 none s i with
    | some (j, run) => some (j, some (String.mk run))
    | none =>
      match litMatch ['-'] s i with
      | some j => some (j, none)
      | none => none

/-- Embedding of _INTEGER: a digit word converted to its value, else the
suppressed blank. -/
def integerFieldMatch (s : List Char) (i : Nat) : Option (Nat × Option Nat) :=
  match wordMatch Char.isDigit 1 none s i with
  | some (j, run) => some (j, some (digitsToNat run))
  | none =>
    match litMatch ['-'] s i with
    | some j => some (j, none)
    | none => none

/-- Embedding of _PORT_NUMBER: a digit word of at most six characters
converted to its value, else the suppressed blank. -/
def portFieldMatch (s : List Char) (i : Nat) : Option (Nat × Option Nat) :=
  match wordMatch Char.isDigit 1 (some 6) s i with
  | some (j, run) => some (j, some (digitsToNat run))
  | none =>
    match litMatch ['-'] s i with
    | some j => some (j, none)
    | none => none

/-- Modelled from the pyparsing library: the octet alternation of the
pyparsing_common.ipv4_address regular expression. A three digit octet
must lie between 100 and 255; any one or two digit run is an octet. The
returned list holds the candidate end positions, longest first, as regex
greediness with backtracking tries them. -/
def octetEnds (s : List Char) (i : Nat) : List Nat :=
  let ds := ((s.drop i).take 3).takeWhile Char.isDigit
  let v3 := digitsToNat (ds.take 3)
  (if ds.length ≥ 3 && 100 ≤ v3 && v3 ≤ 255 then [i + 3] else []) ++
    (if ds.length ≥ 2 then [i + 2] else []) ++
    (if ds.length ≥ 1 then [i + 1] else [])

/-- Modelled from the pyparsing library: the repeated dot-octet groups of
the ipv4_address expression, with backtracking over octet lengths. -/
def dotOctets (s : List Char) : Nat → Nat → Option Nat
  | 0, i => some i
  | n + 1, i =>
    if s.get? i == some '.' then
      (octetEnds s (i + 1)).findSome? (fun j => dotOctets s n j)
    else none

/-- Modelled from the pyparsing library: pyparsing_common.ipv4_address,
an octet followed by three dot-octet groups, with leading space skip. -/
def ipv4Match (s : List Char) (i : Nat) : Option (Nat × List Char) :=
  let j := skipSpaces s i
  match (octetEnds s j).findSome? (fun e => dotOctets s 3 e) with
  | none => none
  | some e => some (e, ((s.drop j).take (e - j)))

/-- Modelled from the pyparsing library: pyparsing_common.ipv6_address,
approximated as a run of hexadecimal digits and colons holding at least
two colons. No claim exercises IPv6 addresses; the matcher only has to
fail on the inputs the theorems evaluate. -/
def ipv6Match (s : List Char) (i : Nat) : Option (Nat × List Char) :=
  let j := skipSpaces s i
  let run := (s.drop j).takeWhile (fun c =>
    c.isDigit || ('a' ≤ c && c ≤ 'f') || ('A' ≤ c && c ≤ 'F') || c == ':')
  if ((run.filter (fun c => c == ':')).length ≥ 2) then
    some (j + run.length, run)
  else none

/-- Embedding of _IP_ADDRESS: an IPv4 address, else an IPv6 address,
else the suppressed blank. -/
def ipFieldMatch (s : List Char) (i : Nat) : Option (Nat × Option String) :=
  match ipv4Match s i with
  | some (j, run) => some (j, some (String.mk run))
  | none =>
    match ipv6Match s i with
    | some (j, run) => some (j, some (String.mk run))
    | none =>
      match litMatch ['-'] s i with
      | some j => some (j, none)
      | none => none

/-- Embedding of _COMMENT_LINE: a hash literal followed by SkipTo of the
line end; the captured token is the text between the hash and the line
terminator, which stays in the buffer. -/
def commentMatchAt (s : List Char) (i : Nat) : Option (Nat × WinFwToken) :=
  match litMatch ['#'] s i with
  | none => none
  | some j =>
    let run := (s.drop j).takeWhile (fun c => !(c == '\n'))
    some (j + run.length, WinFwToken.comment (String.mk run))

/-- Embedding of _LOG_LINE: the date and time group followed by the
fourteen field expressions in declaration order. -/
def loglineMatchAt (s : List Char) (i : Nat) : Option (Nat × WinFwToken) :=
  match dateTimeMatch s i with
  | none => none
  | some rdt =>
  match wordFieldMatch s rdt.1 with
  | none => none
  | some rAction =>
  match wordFieldMatch s rAction.1 with
  | none => none
  | some rProtocol =>
  match ipFieldMatch s rProtocol.1 with
  | none => none
  | some rSourceIp =>
  match ipFieldMatch s rSourceIp.1 with
  | none => none
  | some rDestIp =>
  match portFieldMatch s rDestIp.1 with
  | none => none
  | some rSourcePort =>
  match portFieldMatch s rSourcePort.1 with
  | none => none
  | some rDestPort =>
  match integerFieldMatch s rDestPort.1 with
  | none => none
  | some rSize =>
  match wordFieldMatch s rSize.1 with
  | none => none
  | some rFlags =>
  match integerFieldMatch s rFlags.1 with
  | none => none
  | some rTcpSeq =>
  match integerFieldMatch s rTcpSeq.1 with
  | none => none
  | some rTcpAck =>
  match integerFieldMatch s rTcpAck.1 with
  | none => none
  | some rTcpWin =>
  match integerFieldMatch s rTcpWin.1 with
  | none => none
  | some rIcmpType =>
  match integerFieldMatch s rIcmpType.1 with
  | none => none
  | some rIcmpCode =>
  match wordFieldMatch s rIcmpCode.1 with
  | none => none
  | some rInfo =>
  match wordFieldMatch s rInfo.1 with
  | none => none
  | some rPath =>
    some (rPath.1, WinFwToken.logline
      { date_time := some rdt.2, action := rAction.2, protocol := rProtocol.2,
        source_ip := rSourceIp.2, dest_ip := rDestIp.2,
        source_port := rSourcePort.2, dest_port := rDestPort.2,
        size := rSize.2, flags := rFlags.2, tcp_seq := rTcpSeq.2,
        tcp_ack := rTcpAck.2, tcp_win := rTcpWin.2, icmp_type := rIcmpType.2,
        icmp_code := rIcmpCode.2, info := rInfo.2, path := rPath.2 })

/-- The compiled grammar of WinFirewallLogTextPlugin: _LINE_STRUCTURES in
declaration order, comment before logline (winfirewall.py lines 125-127),
as combined by _SetLineStructures. -/
def winFirewallLineStructures : List (Grammar WinFwToken) :=
  [⟨"comment", commentMatchAt⟩, ⟨"logline", loglineMatchAt⟩]

/-! ### Windows Firewall log plugin: record handlers and state -/

/-- Cross-record state of WinFirewallLogTextPlugin: the fields assigned
in the constructor (winfirewall.py lines 131-136). -/
structure WinFwState where
  software : Option String
  use_local_timezone : Bool
  version : Option String
  deriving DecidableEq

/-- State of a freshly constructed plugin instance. -/
def initialWinFwState : WinFwState := ⟨none, false, none⟩

/-- Embedding of _ParseCommentRecord (winfirewall.py lines 138-152): the
comment text after the hash updates the version, the software name, or
the local-timezone flag; the flag is set when the text after the first
colon of a comment starting with Time contains the lowercase substring
local. -/
def parseCommentRecord (st : WinFwState) (comment : String) : WinFwState :=
  let c := comment.toList
  if startsWithL ("Version".toList) c then
    { st with version := some (String.mk (partAfter ':' c)) }
  else if startsWithL ("Software".toList) c then
    { st with software := some (String.mk (partAfter ':' c)) }
  else if startsWithL ("Time".toList) c then
    if containsSub ("local".toList) (lowerL (partAfter ':' c)) then
      { st with use_local_timezone := true }
    else st
  else st

/-- Modelled from the dfdatetime library: the TimeElements initializer
raises ValueError for out-of-range components. The exact bounds do not
affect any claim; the theorems only need one clearly valid tuple. -/
def dateTimeValid (t : TimeElementsTuple) : Bool :=
  1 ≤ t.month && t.month ≤ 12 && 1 ≤ t.day_of_month && t.day_of_month ≤ 31 &&
    t.hours ≤ 23 && t.minutes ≤ 59 && t.seconds ≤ 60

/-- Event data built by _ParseLogLine: every field copied through
_GetValueFromStructure. -/
def eventDataOf (f : LogLineStructure) : WinFirewallEventData :=
  { action := f.action, dest_ip := f.dest_ip, dest_port := f.dest_port,
    flags := f.flags, icmp_code := f.icmp_code, icmp_type := f.icmp_type,
    info := f.info, path := f.path, protocol := f.protocol, size := f.size,
    source_ip := f.source_ip, source_port := f.source_port,
    tcp_ack := f.tcp_ack, tcp_seq := f.tcp_seq, tcp_win := f.tcp_win }

/-- Embedding of _ParseLogLine (winfirewall.py lines 154-208): a missing
or invalid date and time yields one warning and no event; otherwise one
event is produced whose time zone is the mediator time zone when the
local-timezone flag is set and UTC otherwise. -/
def parseLogLine (st : WinFwState) (med : ParserMediator)
    (f : LogLineStructure) : List Output :=
  match f.date_time with
  | none => [Output.warning "invalid date time value: None"]
  | some dt =>
    if dateTimeValid dt then
      let tz := if st.use_local_timezone then med.timezone else "UTC"
      [Output.event
        { date_time := dt, is_local_time := true,
          timestamp_desc := TIME_DESCRIPTION_WRITTEN, time_zone := tz }
        (eventDataOf f)]
    else
      [Output.warning "invalid date time value: out of bounds"]

/-- Value of _SUPPORTED_KEYS (winfirewall.py line 129). -/
def SUPPORTED_KEYS : List String := ["comment", "logline"]

/-- Embedding of WinFirewallLogTextPlugin._ParseRecord (winfirewall.py
lines 210-233): an unknown key raises ParseError; the comment key runs
_ParseCommentRecord, which only mutates the cross-record state; the
logline key runs _ParseLogLine. The cross pairings of a key with the
token shape of the other key cannot be produced by the compiled grammar
and fall through with no effect. -/
def winFirewallParseRecord (st : WinFwState) (med : ParserMediator)
    (key : String) (tok : WinFwToken) :
    Except String (WinFwState × List Output) :=
  if !(SUPPORTED_KEYS.contains key) then
    Except.error ("Unable to parse record, unknown structure: " ++ key)
  else if key == "comment" then
    match tok with
    | WinFwToken.comment c => Except.ok (parseCommentRecord st c, [])
    | WinFwToken.logline _ => Except.ok (st, [])
  else
    match tok with
    | WinFwToken.logline f => Except.ok (st, parseLogLine st med f)
    | WinFwToken.comment _ => Except.ok (st, [])

/-- Embedding of TextPlugin.Process (interface.py lines 279-304) for the
winfirewall plugin: the file object is rewound, a reader over the
decoded content is created, and _ParseLines runs; the mediator reference
kept for the encoding handler is cleared on exit. The body contains no
assignment to the cross-record plugin fields: the state the call starts
from is whatever the instance held before. -/
def winFirewallProcess (st : WinFwState) (med : ParserMediator)
    (fileContent : String) : WinFwState × List Output :=
  let r := parseLines winFirewallLineStructures
    (fun st k t => winFirewallParseRecord st med k t) med.abort st fileContent
  (r.state, r.outputs)

/-! ### PlistParser (plist.py) -/

/-- Outcome of deserializing the whole byte stream with binplist
(the external library called by GetTopLevel), including the falsy
top-level result the source checks for. -/
inductive TopLevelOutcome where
  | formatIssue
  | lookupOrValueIssue
  | overflowIssue
  | emptyResult
  | content
  deriving DecidableEq

/-- Embedding of PlistParser.GetTopLevel (plist.py lines 58-98): each
failure mode of binplist.readPlist maps to UnableToParseFile with a
distinguishing message, and a falsy deserialization result raises
UnableToParseFile as well. -/
def getTopLevel (outcome : TopLevelOutcome) : Except String Unit :=
  match outcome with
  | TopLevelOutcome.formatIssue =>
    Except.error "[plist] File is not a plist file"
  | TopLevelOutcome.lookupOrValueIssue =>
    Except.error "[plist] Unable to parse XML file"
  | TopLevelOutcome.overflowIssue =>
    Except.error "[plist] Unable to parse: with error"
  | TopLevelOutcome.emptyResult =>
    Except.error "[plist] File is not a plist"
  | TopLevelOutcome.content => Except.ok ()

/-- Behaviour of one registered plist plugin inside the Parse loop:
yields a number of events, raises WrongPlistPlugin, or raises any other
exception (from Process, from iterating the generator, or from
ProduceEvent). -/
inductive PluginOutcome where
  | events (n : Nat)
  | wrongPlugin
  | raises
  deriving DecidableEq

/-- How PlistParser.Parse returns: a normal return, an UnableToParseFile
with its message, or an uncaught exception propagating out of the plugin
loop. -/
inductive PlistExit where
  | returned
  | unableToParse (msg : String)
  | uncaught
  deriving DecidableEq

/-- Observable resource and output effects of one PlistParser.Parse call. -/
structure PlistParseResult where
  closeCount : Nat
  deserializationAttempted : Bool
  exit : PlistExit
  eventsProduced : Nat
  deriving DecidableEq

/-- Events produced before the plugin loop finishes or an exception
escapes it, and whether an exception other than WrongPlistPlugin escaped
(plist.py lines 140-154: only WrongPlistPlugin is caught). -/
def pluginLoop : List PluginOutcome → Nat × Bool
  | [] => (0, false)
  | PluginOutcome.events n :: rest =>
    let r := pluginLoop rest
    (n + r.1, r.2)
  | PluginOutcome.wrongPlugin :: rest => pluginLoop rest
  | PluginOutcome.raises :: _ => (0, true)

/-- Size error message for a non-positive length (plist.py lines 111-115). -/
def sizeErrorSmall (file_size : Int) : String :=
  "[plist] file size: " ++ toString file_size ++ " bytes is less equal 0."

/-- Size error message for an oversized file (plist.py lines 117-122). -/
def sizeErrorLarge (file_size : Int) : String :=
  "[plist] file size: " ++ toString file_size ++ " bytes is larger than 50 MB."

/-- Embedding of PlistParser.Parse (plist.py lines 100-156). The file
object is acquired once; every close call is counted. A non-positive or
oversized length closes the handle and raises before any
deserialization. A GetTopLevel failure closes the handle and re-raises.
The falsy re-check after GetTopLevel cannot fire, because GetTopLevel
already raised on a falsy result, so it adds no path here. The plugin
loop catches only WrongPlistPlugin; any other exception propagates
before the final close statement runs. -/
def plistParse (file_size : Int) (outcome : TopLevelOutcome)
    (plugins : List PluginOutcome) : PlistParseResult :=
  if file_size ≤ 0 then
    ⟨1, false, PlistExit.unableToParse (sizeErrorSmall file_size), 0⟩
  else if file_size > 50000000 then
    ⟨1, false, PlistExit.unableToParse (sizeErrorLarge file_size), 0⟩
  else
    match getTopLevel outcome with
    | Except.error msg => ⟨1, true, PlistExit.unableToParse msg, 0⟩
    | Except.ok () =>
      let lr := pluginLoop plugins
      if lr.2 then ⟨0, true, PlistExit.uncaught, lr.1⟩
      else ⟨1, true, PlistExit.returned, lr.1⟩

/-- Condition under which a Parse call reaches the plugin loop and an
exception other than WrongPlistPlugin escapes it: the size checks pass,
deserialization yields a truthy result, and some plugin raises before
the final close statement. -/
def pluginRaiseEscapes (file_size : Int) (outcome : TopLevelOutcome)
    (plugins : List PluginOutcome) : Bool :=
  (0 < file_size) && (file_size ≤ 50000000) &&
    (outcome == TopLevelOutcome.content) && (pluginLoop plugins).2

/-! ### CheckRequiredFormat (winfirewall.py lines 235-254) -/

/-- Modelled from the spec: _ReadLineOfText, the bounded single-line
probe the format check reads with, is declared outside the examined
sources; it returns the first line of decoded text or raises
UnicodeDecodeError. Embedded as the outcome of that read. -/
inductive ReadLineOutcome where
  | line (text : String)
  | decodeFailure
  deriving DecidableEq

/-- Embedding of WinFirewallLogTextPlugin.CheckRequiredFormat: a decode
failure returns false; otherwise the first line is right-stripped and
compared against the exact version header. -/
def CheckRequiredFormat (r : ReadLineOutcome) : Bool :=
  match r with
  | ReadLineOutcome.decodeFailure => false
  | ReadLineOutcome.line l => String.mk (pyRstrip l.toList) == "#Version: 1.5"

/-! ### Cross-record state viewed over a record sequence

Helpers for stating how the local-timezone flag depends on the records
parsed so far: _ParseRecord leaves the state unchanged on a logline and
applies _ParseCommentRecord on a comment. -/

/-- State transition of one record: _ParseRecord leaves the state
untouched for a logline and applies _ParseCommentRecord for a comment. -/
def parseRecordState (st : WinFwState) (r : WinFwToken) : WinFwState :=
  match r with
  | WinFwToken.comment c => parseCommentRecord st c
  | WinFwToken.logline _ => st

/-- State of a fresh plugin after _ParseRecord has handled each record of
the list in order. -/
def stateAfterRecords (rs : List WinFwToken) : WinFwState :=
  rs.foldl parseRecordState initialWinFwState

/-- Exact condition under which one record sets the local-timezone flag
in the source: a comment whose text starts with Time (not necessarily
followed by a colon) and whose text after the first colon contains the
substring local case-insensitively. -/
def recordTimeCondition (r : WinFwToken) : Bool :=
  match r with
  | WinFwToken.comment c =>
    startsWithL ("Time".toList) c.toList &&
      containsSub ("local".toList) (lowerL (partAfter ':' c.toList))
  | WinFwToken.logline _ => false

/-! ### Concrete fixtures used by the claim theorems -/

/-- Fixture grammar: an alternative matching the single character x,
declared first in its plugin. -/
def shortGrammar : Grammar Unit :=
  ⟨"short", fun s i => if startsWithL ['x'] (s.drop i) then some (i + 1, ()) else none⟩

/-- Fixture grammar: an alternative matching the two characters xy,
declared second in its plugin; wherever it matches, shortGrammar matches
as well, with a shorter match. -/
def longGrammar : Grammar Unit :=
  ⟨"long", fun s i => if startsWithL ['x', 'y'] (s.drop i) then some (i + 2, ()) else none⟩

/-- Fixture grammar matching the single character B anywhere, used to
reach a match that starts after a line terminator. -/
def literalBGrammar : Grammar Unit :=
  ⟨"literalB", fun s i => if startsWithL ['B'] (s.drop i) then some (i + 1, ()) else none⟩

/-- Fixture grammar matching the literal ok, the only valid line shape of
a minimal plugin driving _ParseLines. -/
def okGrammar : Grammar Unit :=
  ⟨"valid", fun s i => if startsWithL ['o', 'k'] (s.drop i) then some (i + 2, ()) else none⟩

/-- Record handler of the minimal plugin: accepts every record and emits
nothing. -/
def trivialHandler : Unit → String → Unit → Except String (Unit × List Output) :=
  fun _ _ _ => Except.ok ((), [])

/-- Text of n one-character lines, none of which any fixture grammar
matches. -/
def unmatchedLines (n : Nat) : String :=
  String.mk (List.flatten (List.replicate n ['a', '\n']))

/-- One _ParseLines run of the minimal plugin over n unmatched lines. -/
def failingRun (n : Nat) : ParseLinesResult Unit :=
  parseLines [okGrammar] trivialHandler false () (unmatchedLines n)

/-- One _ParseLines run over 20 unmatched lines followed by a line the
grammar matches. -/
def recoveringRun : ParseLinesResult Unit :=
  parseLines [okGrammar] trivialHandler false () (unmatchedLines 20 ++ "ok\n")

/-- Fixture mediator whose caller-supplied time zone differs from the
neutral zone. -/
def demoMediator : ParserMediator := ⟨false, "CET"⟩

/-- Fixture date and time tuple that the dfdatetime validation accepts. -/
def demoDateTime : TimeElementsTuple := ⟨2005, 4, 11, 8, 6, 2⟩

/-- Fixture token structure of one well-formed firewall log line. -/
def demoFields : LogLineStructure :=
  { date_time := some demoDateTime, action := some "OPEN",
    protocol := some "TCP", source_ip := some "1.2.3.4",
    dest_ip := some "5.6.7.8", source_port := some 80,
    dest_port := some 443, size := none, flags := none, tcp_seq := none,
    tcp_ack := none, tcp_win := none, icmp_type := none, icmp_code := none,
    info := none, path := none }

/-! ## Helper lemmas -/

/-- Occurrence of a one-character pattern is membership. -/
theorem containsSub_singleton (c : Char) (l : List Char) :
    containsSub [c] l = true ↔ c ∈ l := by
  induction l with
  | nil => simp [containsSub, startsWithL]
  | cons a as ih =>
    simp [containsSub, startsWithL, Bool.or_eq_true, Bool.and_eq_true,
      beq_iff_eq, ih, List.mem_cons]

/-- Failure of the alternation means no alternative matches. -/
theorem orMatchAt_none {τ : Type} {gs : List (Grammar τ)} {s : List Char} {i : Nat}
    (h : orMatchAt gs s i = none) :
    ∀ g ∈ gs, g.matchAt s i = none := by
  induction gs with
  | nil => simp
  | cons g rest ih =>
    simp only [orMatchAt] at h
    intro g2 hg2
    cases hg : g.matchAt s i with
    | none =>
      rw [hg] at h
      rcases List.mem_cons.mp hg2 with rfl | hm
      · exact hg
      · exact ih h g2 hm
    | some p =>
      obtain ⟨e1, t1⟩ := p
      rw [hg] at h
      cases hr : orMatchAt rest s i with
      | none => rw [hr] at h; cases h
      | some q =>
        obtain ⟨k2, e2, t2⟩ := q
        simp only [hr] at h
        by_cases hc : e2 > e1
        · rw [if_pos hc] at h; cases h
        · rw [if_neg hc] at h; cases h

/-- Success of the alternation names a member alternative whose match end
no other alternative exceeds: the pyparsing Or picks a longest match. -/
theorem orMatchAt_longest {τ : Type} {s : List Char} {i : Nat} :
    ∀ (gs : List (Grammar τ)) (k : String) (e : Nat) (t : τ),
      orMatchAt gs s i = some (k, e, t) →
      (∃ g ∈ gs, g.key = k ∧ g.matchAt s i = some (e, t)) ∧
        ∀ g ∈ gs, ∀ e2 t2, g.matchAt s i = some (e2, t2) → e2 ≤ e := by
  intro gs
  induction gs with
  | nil => intro k e t h; simp [orMatchAt] at h
  | cons g rest ih =>
    intro k e t h
    simp only [orMatchAt] at h
    cases hg : g.matchAt s i with
    | none =>
      rw [hg] at h
      obtain ⟨⟨g2, hmem, hkey, hmatch⟩, hmax⟩ := ih k e t h
      refine ⟨⟨g2, List.mem_cons_of_mem _ hmem, hkey, hmatch⟩, ?_⟩
      intro g3 hg3 e2 t2 hm
      rcases List.mem_cons.mp hg3 with rfl | hm3
      · rw [hg] at hm; cases hm
      · exact hmax g3 hm3 e2 t2 hm
    | some p =>
      obtain ⟨e1, t1⟩ := p
      rw [hg] at h
      cases hr : orMatchAt rest s i with
      | none =>
        rw [hr] at h
        simp only [Option.some.injEq, Prod.mk.injEq] at h
        obtain ⟨hk, he, ht⟩ := h
        subst hk; subst he; subst ht
        refine ⟨⟨g, List.mem_cons_self g rest, rfl, hg⟩, ?_⟩
        intro g3 hg3 e2 t2 hm
        rcases List.mem_cons.mp hg3 with rfl | hm3
        · rw [hg] at hm
          simp only [Option.some.injEq, Prod.mk.injEq] at hm
          omega
        · rw [orMatchAt_none hr g3 hm3] at hm; cases hm
      | some q =>
        obtain ⟨k2, e2r, t2r⟩ := q
        simp only [hr] at h
        by_cases hcmp : e2r > e1
        · rw [if_pos hcmp] at h
          simp only [Option.some.injEq, Prod.mk.injEq] at h
          obtain ⟨hk, he, ht⟩ := h
          subst hk; subst he; subst ht
          obtain ⟨⟨g2, hmem, hkey, hmatch⟩, hmax⟩ := ih _ _ _ hr
          refine ⟨⟨g2, List.mem_cons_of_mem _ hmem, hkey, hmatch⟩, ?_⟩
          intro g3 hg3 e2 t2 hm
          rcases List.mem_cons.mp hg3 with rfl | hm3
          · rw [hg] at hm
            simp only [Option.some.injEq, Prod.mk.injEq] at hm
            omega
          · exact hmax g3 hm3 e2 t2 hm
        · rw [if_neg hcmp] at h
          simp only [Option.some.injEq, Prod.mk.injEq] at h
          obtain ⟨hk, he, ht⟩ := h
          subst hk; subst he; subst ht
          refine ⟨⟨g, List.mem_cons_self g rest, rfl, hg⟩, ?_⟩
          intro g3 hg3 e2 t2 hm
          rcases List.mem_cons.mp hg3 with rfl | hm3
          · rw [hg] at hm
            simp only [Option.some.injEq, Prod.mk.injEq] at hm
            omega
          · have := (ih _ _ _ hr).2 g3 hm3 e2 t2 hm
            omega

/-- A scan that returns a match found it with the alternation at the
reported start position. -/
theorem scanFrom_sound {τ : Type} {gs : List (Grammar τ)} {s : List Char} :
    ∀ (fuel i : Nat) {k : String} {st e : Nat} {t : τ},
      scanFrom gs s i fuel = some (k, st, e, t) →
      orMatchAt gs s st = some (k, e, t) := by
  intro fuel
  induction fuel with
  | zero => intro i k st e t h; simp [scanFrom] at h
  | succ n ih =>
    intro i k st e t h
    simp only [scanFrom] at h
    cases ho : orMatchAt gs s i with
    | some p =>
      obtain ⟨k1, e1, t1⟩ := p
      rw [ho] at h
      simp only [Option.some.injEq, Prod.mk.injEq] at h
      obtain ⟨hk, hst, he, ht⟩ := h
      subst hk; subst hst; subst he; subst ht
      exact ho
    | none =>
      rw [ho] at h
      by_cases hlen : i < s.length
      · rw [if_pos hlen] at h
        exact ih (i + 1) h
      · rw [if_neg hlen] at h
        cases h

/-! ## Claim theorems -/

/-- C6: for every buffer and every grammar, when _ParseString finds a
match starting at an offset s greater than 0 and a newline character
occurs in the buffer at an offset at most s, the match is rejected with
the parse failure Found a line preceeding match: a match may only begin
at the start of a logical line. -/
theorem c6_match_preceded_by_line_rejected {τ : Type} (gs : List (Grammar τ))
    (s : List Char) (k : String) (t : τ) (st e : Nat)
    (hscan : scanString gs s = some (k, st, e, t)) (hpos : 0 < st)
    (hnl : '\n' ∈ s.take (st + 1)) :
    parseString gs s = ParseStringResult.error "Found a line preceeding match." := by
  unfold parseString
  rw [hscan]
  have h1 : (decide (st > 0) && containsSub ['\n'] (s.take (st + 1))) = true := by
    rw [Bool.and_eq_true, decide_eq_true_eq]
    exact ⟨hpos, (containsSub_singleton _ _).mpr hnl⟩
  simp only [h1, if_true]

/-- C6 witness: with a grammar matching the letter B, the buffer holding
an unmatched line before the B is rejected by _ParseString. -/
theorem c6_witness :
    parseString [literalBGrammar] ("A\nB".toList) =
      ParseStringResult.error "Found a line preceeding match." :=
  c6_match_preceded_by_line_rejected [literalBGrammar] ("A\nB".toList)
    "literalB" () 2 3 (by decide) (by decide) (by decide)

/-- C1 counterexample: in a plugin declaring shortGrammar before
longGrammar, both alternatives match at scan position 0 of the buffer
xy, yet _ParseString returns the match of the later-declared longGrammar
because its match is longer; the first grammar in declaration order does
not win. -/
theorem c1_counterexample :
    shortGrammar.matchAt ("xy".toList) 0 = some (1, ()) ∧
    longGrammar.matchAt ("xy".toList) 0 = some (2, ()) ∧
    parseString [shortGrammar, longGrammar] ("xy".toList) =
      ParseStringResult.ok "long" () 0 2 ∧
    ("long" : String) ≠ "short" := by
  refine ⟨by decide, by decide, by decide, by decide⟩

/-- C1 amended: when _ParseString returns a match, the winning grammar is
one of the declared alternatives and its match at the reported scan
position is at least as long as the match of every other alternative
there: the alternation built with the pyparsing xor operator is
longest-match, with declaration order only deciding between equally long
matches. -/
theorem c1_longest_match_wins {τ : Type} (gs : List (Grammar τ)) (s : List Char)
    (k : String) (t : τ) (st e : Nat)
    (h : parseString gs s = ParseStringResult.ok k t st e) :
    (∃ g ∈ gs, g.key = k ∧ g.matchAt s st = some (e, t)) ∧
      ∀ g ∈ gs, ∀ e2 t2, g.matchAt s st = some (e2, t2) → e2 ≤ e := by
  unfold parseString at h
  cases hs : scanString gs s with
  | none => rw [hs] at h; cases h
  | some r =>
    obtain ⟨k1, st1, e1, t1⟩ := r
    simp only [hs] at h
    split at h
    · cases h
    · simp only [ParseStringResult.ok.injEq] at h
      obtain ⟨hk, ht, hst, he⟩ := h
      subst hk; subst ht; subst hst; subst he
      exact orMatchAt_longest gs _ _ _ (scanFrom_sound _ 0 hs)

/-- C1 amended witness: on the buffer xy, the returned match belongs to
the declared list and no alternative matches longer than 2 characters. -/
theorem c1_longest_match_wins_witness :
    (∃ g ∈ [shortGrammar, longGrammar], g.key = "long" ∧
        g.matchAt ("xy".toList) 0 = some (2, ())) ∧
      ∀ g ∈ [shortGrammar, longGrammar], ∀ e2 t2,
        g.matchAt ("xy".toList) 0 = some (e2, t2) → e2 ≤ 2 :=
  c1_longest_match_wins [shortGrammar, longGrammar] ("xy".toList) "long" () 0 2
    (by decide)

/-- C3 counterexample: after one Process call over an artifact holding
the header Time: local, the cross-record local-timezone flag is set, and
a second Process call of the same instance over a different artifact
starts from and ends in that populated state instead of the initial
state. -/
theorem c3_counterexample :
    (winFirewallProcess initialWinFwState demoMediator "#Time: local\n").1.use_local_timezone
        = true ∧
    (winFirewallProcess
        (winFirewallProcess initialWinFwState demoMediator "#Time: local\n").1
        demoMediator "").1.use_local_timezone = true ∧
    initialWinFwState.use_local_timezone = false := by
  refine ⟨by decide, by decide, by decide⟩

/-- C3 amended: Process performs no reset of the cross-record state; the
call starts from whatever state the instance held, as witnessed by a
Process call over an empty artifact returning the incoming state
unchanged, whatever it is. -/
theorem c3_no_reset_on_process (st : WinFwState) (med : ParserMediator) :
    winFirewallProcess st med "" = (st, []) := rfl

/-- C10: a structure dispatched with the comment key produces no event
and no warning; its only effect is updating the cross-record state
through _ParseCommentRecord; structures dispatched with the logline key
are the only ones whose handler produces events. -/
theorem c10_comment_record_no_output (st : WinFwState) (med : ParserMediator)
    (c : String) :
    winFirewallParseRecord st med "comment" (WinFwToken.comment c) =
        Except.ok (parseCommentRecord st c, []) ∧
    ∀ f : LogLineStructure,
      winFirewallParseRecord st med "logline" (WinFwToken.logline f) =
        Except.ok (st, parseLogLine st med f) :=
  ⟨rfl, fun _ => rfl⟩

/-- C5: Parse raises UnableToParseFile with the size message, before any
deserialization is attempted, for every length at most 0 and for every
length above 50000000; a length of exactly 50000000 proceeds to
deserialization. -/
theorem c5_size_bounds (file_size : Int) (outcome : TopLevelOutcome)
    (plugins : List PluginOutcome) :
    (file_size ≤ 0 →
      plistParse file_size outcome plugins =
        ⟨1, false, PlistExit.unableToParse (sizeErrorSmall file_size), 0⟩) ∧
    (50000000 < file_size →
      plistParse file_size outcome plugins =
        ⟨1, false, PlistExit.unableToParse (sizeErrorLarge file_size), 0⟩) ∧
    (file_size = 50000000 →
      (plistParse file_size outcome plugins).deserializationAttempted = true) := by
  refine ⟨?_, ?_, ?_⟩
  · intro h
    unfold plistParse
    rw [if_pos h]
  · intro h
    unfold plistParse
    rw [if_neg (by omega), if_pos h]
  · intro h
    subst h
    unfold plistParse
    rw [if_neg (by omega), if_neg (by omega)]
    cases outcome <;> simp [getTopLevel]
    cases hp : (pluginLoop plugins).2 <;> simp [hp]

/-- C5 witness: sizes 0 and 50000001 raise before deserialization and
size 50000000 deserializes. -/
theorem c5_size_bounds_witness :
    plistParse 0 TopLevelOutcome.content [] =
      ⟨1, false, PlistExit.unableToParse (sizeErrorSmall 0), 0⟩ ∧
    plistParse 50000001 TopLevelOutcome.content [] =
      ⟨1, false, PlistExit.unableToParse (sizeErrorLarge 50000001), 0⟩ ∧
    (plistParse 50000000 TopLevelOutcome.content []).deserializationAttempted = true :=
  ⟨(c5_size_bounds 0 TopLevelOutcome.content []).1 (by decide),
    (c5_size_bounds 50000001 TopLevelOutcome.content []).2.1 (by decide),
    (c5_size_bounds 50000000 TopLevelOutcome.content []).2.2 rfl⟩

/-- C4 counterexample: when a plugin raises an exception other than
WrongPlistPlugin, Parse propagates it before the final close statement
runs, and the file object is never closed. -/
theorem c4_counterexample :
    (plistParse 100 TopLevelOutcome.content [PluginOutcome.raises]).closeCount = 0 ∧
    (plistParse 100 TopLevelOutcome.content [PluginOutcome.raises]).exit =
      PlistExit.uncaught := by
  refine ⟨by decide, by decide⟩

/-- C4 amended: the file object is closed exactly once on every exit
path, except that an exception other than WrongPlistPlugin escaping the
plugin loop leaves it unclosed. -/
theorem c4_close_exactly_once_unless_plugin_raises (file_size : Int)
    (outcome : TopLevelOutcome) (plugins : List PluginOutcome) :
    (plistParse file_size outcome plugins).closeCount =
      if pluginRaiseEscapes file_size outcome plugins then 0 else 1 := by
  unfold plistParse pluginRaiseEscapes
  by_cases h1 : file_size ≤ 0
  · rw [if_pos h1]
    have hd : decide (0 < file_size) = false := by
      simp only [decide_eq_false_iff_not]
      omega
    simp [hd]
  · rw [if_neg h1]
    by_cases h2 : file_size > 50000000
    · rw [if_pos h2]
      have hd : decide (file_size ≤ 50000000) = false := by
        simp only [decide_eq_false_iff_not]
        omega
      simp [hd]
    · rw [if_neg h2]
      have hd1 : decide (0 < file_size) = true := by
        simp only [decide_eq_true_eq]
        omega
      have hd2 : decide (file_size ≤ 50000000) = true := by
        simp only [decide_eq_true_eq]
        omega
      cases outcome <;> simp [getTopLevel, hd1, hd2]
      cases hp : (pluginLoop plugins).2 <;> simp [hp]

/-- C7 counterexample: for the invalid byte 5, the substitution built by
_EncodingErrorHandler is a backslash, an x, a SPACE and the digit 5: it
holds only 3 visible characters, not a fixed-width hexadecimal escape of
exactly 4 visible characters, because the format width 2 pads with a
space instead of a zero. -/
theorem c7_counterexample :
    (encodingErrorHandler 0 [5] 0).1.1 = ['\\', 'x', ' ', '5'] ∧
    (((encodingErrorHandler 0 [5] 0).1.1).filter (fun c => !(c == ' '))).length
      = 3 := by
  refine ⟨by decide, by decide⟩

/-- C2 counterexample: feeding exactly 21 (threshold plus one)
consecutive unmatched lines does not abort and emits no summary warning:
the buffer is exhausted before the loop re-checks the failure counter,
so only the 21 per-line warnings appear and the run ends by exhaustion
with the counter at 21. -/
theorem c2_counterexample :
    countSummaryWarnings (failingRun 21).outputs = 0 ∧
    (failingRun 21).aborted_by_threshold = false ∧
    (failingRun 21).outputs.length = 21 ∧
    (failingRun 21).consecutive_line_failures = 21 := by decide

/-- C2 amended: the abort with exactly one summary warning happens only
when the counter exceeds the threshold while input is still buffered:
22 consecutive unmatched lines yield exactly one summary warning beyond
the per-line warnings and abort scanning, while exactly 20 unmatched
lines followed by one matching line neither abort nor warn in summary
and reset the consecutive-failure counter to zero. -/
theorem c2_threshold_behaviour :
    (countSummaryWarnings (failingRun 22).outputs = 1 ∧
      (failingRun 22).aborted_by_threshold = true ∧
      (failingRun 22).outputs.length = 22) ∧
    (countSummaryWarnings recoveringRun.outputs = 0 ∧
      recoveringRun.aborted_by_threshold = false ∧
      recoveringRun.consecutive_line_failures = 0) := by decide

/-- A comment starting with Version does not start with Time. -/
theorem versionNotTime (l : List Char)
    (h : startsWithL ("Version".toList) l = true) :
    startsWithL ("Time".toList) l = false := by
  cases l with
  | nil => exact absurd h (by decide)
  | cons c cs =>
    have h2 : (('V' == c) && startsWithL ("ersion".toList) cs) = true := h
    have h3 := (Bool.and_eq_true _ _) ▸ h2
    have hc : c = 'V' := (beq_iff_eq.mp h3.1).symm
    subst hc
    show (('T' == 'V') && startsWithL ("ime".toList) cs) = false
    simp

/-- A comment starting with Software does not start with Time. -/
theorem softwareNotTime (l : List Char)
    (h : startsWithL ("Software".toList) l = true) :
    startsWithL ("Time".toList) l = false := by
  cases l with
  | nil => exact absurd h (by decide)
  | cons c cs =>
    have h2 : (('S' == c) && startsWithL ("oftware".toList) cs) = true := h
    have h3 := (Bool.and_eq_true _ _) ▸ h2
    have hc : c = 'S' := (beq_iff_eq.mp h3.1).symm
    subst hc
    show (('T' == 'S') && startsWithL ("ime".toList) cs) = false
    simp

/-- One comment record sets the local-timezone flag exactly when the
record satisfies the source condition; otherwise the flag is carried
through. -/
theorem parseCommentRecord_flag (st : WinFwState) (c : String) :
    (parseCommentRecord st c).use_local_timezone =
      (st.use_local_timezone || recordTimeCondition (WinFwToken.comment c)) := by
  unfold parseCommentRecord
  simp only [recordTimeCondition]
  by_cases hv : startsWithL ("Version".toList) c.toList = true
  · rw [if_pos hv, versionNotTime _ hv]
    simp
  · rw [if_neg hv]
    by_cases hs : startsWithL ("Software".toList) c.toList = true
    · rw [if_pos hs, softwareNotTime _ hs]
      simp
    · rw [if_neg hs]
      by_cases ht : startsWithL ("Time".toList) c.toList = true
      · rw [if_pos ht, ht]
        by_cases hl : containsSub ("local".toList) (lowerL (partAfter ':' c.toList)) = true
        · rw [if_pos hl, hl]
          simp
        · rw [if_neg hl, Bool.eq_false_iff.mpr hl]
          simp
      · rw [if_neg ht, Bool.eq_false_iff.mpr ht]
        simp

/-- The local-timezone flag after a record sequence from any starting
state: set exactly when it was already set or some record satisfies the
source condition. -/
theorem foldRecords_flag (rs : List WinFwToken) :
    ∀ st : WinFwState,
      (rs.foldl parseRecordState st).use_local_timezone =
        (st.use_local_timezone || rs.any recordTimeCondition) := by
  induction rs with
  | nil => intro st; simp
  | cons r rest ih =>
    intro st
    cases r with
    | comment c =>
      simp only [List.foldl_cons, List.any_cons, parseRecordState]
      rw [ih, parseCommentRecord_flag, Bool.or_assoc]
    | logline f =>
      simp only [List.foldl_cons, List.any_cons, parseRecordState]
      rw [ih]
      simp [recordTimeCondition]

/-- The local-timezone flag of a fresh plugin after a record sequence. -/
theorem stateAfterRecords_flag (rs : List WinFwToken) :
    (stateAfterRecords rs).use_local_timezone = rs.any recordTimeCondition := by
  unfold stateAfterRecords
  rw [foldRecords_flag]
  rfl

/-- C8 counterexample: the comment Timezone: local is not of the form
Time: followed by anything, yet parsing it sets the local-timezone flag,
so the next data line produces an event carrying the mediator time zone
CET although no header of the claimed form was seen; the claim requires
UTC in this case. -/
theorem c8_counterexample :
    startsWithL ("Time:".toList) ("Timezone: local".toList) = false ∧
    parseLogLine (stateAfterRecords [WinFwToken.comment "Timezone: local"])
        demoMediator demoFields =
      [Output.event
        ⟨demoDateTime, true, TIME_DESCRIPTION_WRITTEN, "CET"⟩
        (eventDataOf demoFields)] ∧
    demoMediator.timezone = "CET" ∧ ("CET" : String) ≠ "UTC" := by
  refine ⟨by decide, by decide, by decide, by decide⟩

/-- C8 amended: for every data line with a valid timestamp parsed after
any record sequence, the produced event carries the mediator-supplied
local time zone exactly when some previously parsed comment starts with
Time (not necessarily followed by a colon) and has, after its first
colon, text containing the substring local case-insensitively; the event
carries the fixed neutral zone UTC otherwise. -/
theorem c8_timezone_choice (rs : List WinFwToken) (med : ParserMediator)
    (f : LogLineStructure) (dt : TimeElementsTuple)
    (hdt : f.date_time = some dt) (hv : dateTimeValid dt = true) :
    parseLogLine (stateAfterRecords rs) med f =
      [Output.event
        ⟨dt, true, TIME_DESCRIPTION_WRITTEN,
          if rs.any recordTimeCondition then med.timezone else "UTC"⟩
        (eventDataOf f)] := by
  unfold parseLogLine
  rw [hdt]
  simp only [hv, if_true]
  rw [stateAfterRecords_flag]

/-- C8 amended witness: after the single header comment Time: local, a
valid data line produces the event with the mediator time zone. -/
theorem c8_timezone_choice_witness :
    parseLogLine (stateAfterRecords [WinFwToken.comment "Time: local"])
        demoMediator demoFields =
      [Output.event
        ⟨demoDateTime, true, TIME_DESCRIPTION_WRITTEN,
          if [WinFwToken.comment "Time: local"].any recordTimeCondition then
            demoMediator.timezone
          else "UTC"⟩
        (eventDataOf demoFields)] :=
  c8_timezone_choice [WinFwToken.comment "Time: local"] demoMediator demoFields
    demoDateTime rfl (by decide)

/-- Elements satisfying the predicate in front of an append do not change
where dropWhile lands. -/
theorem dropWhile_append_of_all {p : Char → Bool} (xs ys : List Char)
    (hxs : ∀ c ∈ xs, p c = true) :
    (xs ++ ys).dropWhile p = ys.dropWhile p := by
  induction xs with
  | nil => rfl
  | cons a as ih =>
    have ha : p a = true := hxs a (List.mem_cons_self a as)
    simp only [List.cons_append, List.dropWhile_cons, ha, if_true]
    exact ih (fun c hc => hxs c (List.mem_cons_of_mem _ hc))

/-- Decoding from a position whose suffix is pure ASCII yields those
bytes unchanged with no warnings. -/
theorem decode_go_ascii (currentOffset : Nat) (object : List Nat) :
    ∀ (fuel pos : Nat), object.length ≤ pos + fuel →
      (∀ x ∈ object.drop pos, x < 128) →
      decodeAsciiWithHandler.go currentOffset object pos fuel =
        ((object.drop pos).map Char.ofNat, []) := by
  intro fuel
  induction fuel with
  | zero =>
    intro pos hlen _
    rw [decodeAsciiWithHandler.go, List.drop_eq_nil_of_le (by omega)]
    rfl
  | succ n ih =>
    intro pos hlen hascii
    rw [decodeAsciiWithHandler.go]
    cases hg : object.get? pos with
    | none =>
      have hl : object.length ≤ pos := List.get?_eq_none.mp hg
      rw [List.drop_eq_nil_of_le hl]
      rfl
    | some b =>
      obtain ⟨hlt, hgl⟩ := List.get?_eq_some.mp hg
      have hdrop : object.drop pos = b :: object.drop (pos + 1) := by
        have hgl2 : object[pos] = b := by simpa using hgl
        rw [List.drop_eq_getElem_cons hlt, hgl2]
      have hb : b < 128 := hascii b (by rw [hdrop]; exact List.mem_cons_self _ _)
      dsimp only
      rw [if_pos hb,
        ih (pos + 1) (by omega)
          (fun x hx => hascii x (by rw [hdrop]; exact List.mem_cons_of_mem _ hx)),
        hdrop]
      rfl

/-- C7 amended: on an invalid byte the handler emits exactly one warning
carrying the absolute offset and the byte value, substitutes a
4-character escape of a backslash, an x and the byte value space-padded
to hexadecimal width 2 (so all 4 characters are visible only for byte
values of at least 16), and resumes decoding at the immediately
following byte: an invalid byte followed by N valid ASCII bytes decodes
to the escape plus the N bytes unchanged, consuming all N + 1 bytes. -/
theorem c7_substitution_and_resume (currentOffset : Nat) (b : Nat) (ts : List Nat)
    (hb : 128 ≤ b) (hts : ∀ x ∈ ts, x < 128) :
    decodeAsciiWithHandler currentOffset (b :: ts) =
      (encodingErrorEscape b ++ ts.map Char.ofNat,
        [encodingErrorWarning currentOffset b 0]) ∧
    (encodingErrorEscape b).length = 4 ∧
    (encodingErrorHandler currentOffset (b :: ts) 0).1.2 = 1 := by
  refine ⟨?_, ?_, rfl⟩
  · unfold decodeAsciiWithHandler
    rw [decodeAsciiWithHandler.go]
    have hg : (b :: ts).get? 0 = some b := rfl
    rw [hg]
    dsimp only
    rw [if_neg (by omega)]
    have hrest : decodeAsciiWithHandler.go currentOffset (b :: ts) 1
        ((b :: ts).length + 1 - 1) = (ts.map Char.ofNat, []) := by
      have := decode_go_ascii currentOffset (b :: ts) ((b :: ts).length + 1 - 1) 1
        (by simp) (by simpa using hts)
      simpa using this
    simp only [List.length_cons, Nat.add_sub_cancel] at hrest ⊢
    rw [show (encodingErrorHandler currentOffset (b :: ts) 0).1.2 = 1 from rfl,
      hrest]
    rfl
  · unfold encodingErrorEscape pyFormatHex2
    split <;> rfl

/-- C7 amended witness: the invalid byte 181 followed by the ASCII bytes
97 and 98 decodes to the 4-character escape and the two characters, with
one warning at the absolute offset 10. -/
theorem c7_substitution_and_resume_witness :
    decodeAsciiWithHandler 10 [181, 97, 98] =
      (encodingErrorEscape 181 ++ [97, 98].map Char.ofNat,
        [encodingErrorWarning 10 181 0]) ∧
    (encodingErrorEscape 181).length = 4 ∧
    (encodingErrorHandler 10 [181, 97, 98] 0).1.2 = 1 :=
  c7_substitution_and_resume 10 181 [97, 98] (by decide) (by decide)

/-- C9: CheckRequiredFormat returns false on a decode error instead of
propagating it, and returns true exactly when the first line right
stripped equals the version header, equivalently when the line is the
version header followed only by trailing whitespace. -/
theorem c9_check_required_format :
    CheckRequiredFormat ReadLineOutcome.decodeFailure = false ∧
    (∀ l : String,
      (CheckRequiredFormat (ReadLineOutcome.line l) = true ↔
        pyRstrip l.toList = "#Version: 1.5".toList)) ∧
    ∀ l : String,
      (CheckRequiredFormat (ReadLineOutcome.line l) = true ↔
        ∃ ws : List Char, l.toList = ("#Version: 1.5".toList) ++ ws ∧
          ∀ c ∈ ws, isPySpace c = true) := by
  have hiff : ∀ l : String,
      (CheckRequiredFormat (ReadLineOutcome.line l) = true ↔
        pyRstrip l.toList = "#Version: 1.5".toList) := by
    intro l
    constructor
    · intro h
      have h2 : String.mk (pyRstrip l.toList) = "#Version: 1.5" := beq_iff_eq.mp h
      exact congrArg String.toList h2
    · intro h
      show (String.mk (pyRstrip l.toList) == "#Version: 1.5") = true
      rw [h]
      decide
  refine ⟨rfl, hiff, ?_⟩
  intro l
  rw [hiff l]
  constructor
  · intro heq
    refine ⟨(l.toList.reverse.takeWhile isPySpace).reverse, ?_, ?_⟩
    · have hsplit : l.toList =
          pyRstrip l.toList ++ (l.toList.reverse.takeWhile isPySpace).reverse := by
        conv_lhs =>
          rw [← List.reverse_reverse l.toList,
            ← List.takeWhile_append_dropWhile isPySpace l.toList.reverse]
        rw [List.reverse_append]
        rfl
      conv_lhs => rw [hsplit]
      rw [heq]
    · intro c hc
      exact List.mem_takeWhile_imp (List.mem_reverse.mp hc)
  · rintro ⟨ws, hl, hws⟩
    rw [hl]
    unfold pyRstrip
    rw [List.reverse_append,
      dropWhile_append_of_all _ _ (fun c hc => hws c (List.mem_reverse.mp hc)),
      show ("#Version: 1.5".toList).reverse.dropWhile isPySpace =
        ("#Version: 1.5".toList).reverse from by decide]
    exact List.reverse_reverse _

/-- C9 witness: the version header with a trailing line terminator is
accepted. -/
theorem c9_check_required_format_witness :
    CheckRequiredFormat (ReadLineOutcome.line "#Version: 1.5\n") = true :=
  (c9_check_required_format.2.2 "#Version: 1.5\n").mpr
    ⟨['\n'], by decide, by decide⟩

end Plaso
